import Mathlib

/-!
Verification of the request-parsing / typed-dispatch pipeline of the
azure-functions-openapi package.

The development shallowly embeds the pipeline:
  * the schema coercion adapters `convertParamsToObject`, `convertQueryToObject`,
    `convertHeadersToObject` (packages/azure-functions-openapi utils),
  * the four typed parsers `parseRouteParams`, `parseQueryParams`, `parseBody`,
    `parseHeaders`,
  * the request orchestrator `parseRequest`,
  * the safe-request guard `createSafeRequest` with its throwing prototype, and
  * the typed-handler dispatcher `wrapTypedHandler`
as executable Lean functions.  JavaScript exceptions are modelled with `Except`,
JavaScript plain objects as association lists with JS assignment semantics
(`setKey`: replace in place if the key exists, append otherwise), and dynamic
JSON values by the inductive type `JsonValue`.
-/

/-- Dynamic JSON-like values (the untyped values JavaScript passes around). -/
inductive JsonValue where
  | null : JsonValue
  | bool (b : Bool) : JsonValue
  | num (n : Int) : JsonValue
  | str (s : String) : JsonValue
  | arr (xs : List JsonValue) : JsonValue
  | obj (kvs : List (String × JsonValue)) : JsonValue

/-- The structured issue list carried by a zod error (`ZodError.issues`).
Issues are modelled opaquely as strings. -/
structure ZodError where
  issues : List String
deriving DecidableEq

/-- Result of `schema.parse`: either a typed value, a `z.ZodError`
(`error instanceof z.ZodError`), or some other thrown error. -/
inductive SchemaError where
  | zodError (e : ZodError) : SchemaError
  | other (msg : String) : SchemaError

/-- A zod schema, reduced to its `parse` behaviour: it either returns a
validated+typed value or throws. -/
structure ZodSchema where
  parse : JsonValue → Except SchemaError JsonValue

/-- Errors flowing through the pipeline: the library's `ValidationError`
(message plus optional attached `ZodError`) or any other JS error. -/
inductive Err where
  | validationError (message : String) (zodError : Option ZodError) : Err
  | error (msg : String) : Err

/-- Property read on a JS object: absent (`undefined`), a plain value, or a
getter that throws with the given message. -/
inductive PropRead where
  | undef : PropRead
  | val (v : String) : PropRead
  | raise (msg : String) : PropRead
deriving DecidableEq

/-- First-match lookup in an association list (JS object property read). -/
def lookupKey {α : Type} : List (String × α) → String → Option α
  | [], _ => none
  | (k, v) :: rest, key => if k = key then some v else lookupKey rest key

/-- JS object assignment `result[key] = value`: replaces the value in place if
the key already exists (keeping its insertion position), appends otherwise. -/
def setKey {α : Type} : List (String × α) → String → α → List (String × α)
  | [], key, value => [(key, value)]
  | (k, v) :: rest, key, value =>
      if k = key then (k, value) :: rest else (k, v) :: setKey rest key value

/-- `charsStartWith needle hay`: `hay` starts with `needle`. -/
def charsStartWith : List Char → List Char → Bool
  | [], _ => true
  | _ :: _, [] => false
  | n :: ns, h :: hs => n == h && charsStartWith ns hs

/-- `charsIncludes needle hay`: `needle` occurs contiguously inside `hay`. -/
def charsIncludes (needle : List Char) : List Char → Bool
  | [] => charsStartWith needle []
  | c :: rest => charsStartWith needle (c :: rest) || charsIncludes needle rest

/-- JavaScript `s.includes(sub)`: substring containment (true for `sub = ""`). -/
def strIncludes (s sub : String) : Bool :=
  charsIncludes sub.data s.data

/-- ASCII lower-casing of a string (JavaScript `toLowerCase` on header names),
written structurally so that it evaluates definitionally. -/
def strToLower (s : String) : String :=
  String.mk (s.data.map Char.toLower)

/-- `headers.get(name)` on an undici `Headers` object: case-insensitive lookup
of a header value. -/
def headersGet (headers : List (String × String)) (name : String) : Option String :=
  lookupKey (headers.map (fun kv => (strToLower kv.fst, kv.snd))) (strToLower name)

/-! ## Schema coercion adapters (utils.ts) -/

/-- `convertParamsToObject`: copies the route-parameter record key by key
(`for (const key in params) result[key] = params[key]`). -/
def convertParamsToObject (params : List (String × String)) : List (String × JsonValue) :=
  params.foldl (fun result kv => setKey result kv.fst (JsonValue.str kv.snd)) []

/-- One step of `convertQueryToObject`'s `forEach` callback:
if the key is unseen store the string; if the existing value is an array push
onto it; otherwise replace the string with a two-element array. -/
def queryFoldStep (result : List (String × JsonValue)) (kv : String × String) :
    List (String × JsonValue) :=
  match lookupKey result kv.fst with
  | none => setKey result kv.fst (JsonValue.str kv.snd)
  | some (JsonValue.arr xs) => setKey result kv.fst (JsonValue.arr (xs ++ [JsonValue.str kv.snd]))
  | some existing => setKey result kv.fst (JsonValue.arr [existing, JsonValue.str kv.snd])

/-- `convertQueryToObject`: folds the query multi-map into a plain object,
collecting repeated keys into arrays. -/
def convertQueryToObject (query : List (String × String)) : List (String × JsonValue) :=
  query.foldl queryFoldStep []

/-- `convertHeadersToObject`: lower-cases every header name. -/
def convertHeadersToObject (headers : List (String × String)) : List (String × JsonValue) :=
  headers.foldl (fun result kv => setKey result (strToLower kv.fst) (JsonValue.str kv.snd)) []

/-! ## The Azure Functions request, as consumed by this pipeline -/

/-- The slice of an Azure Functions `HttpRequest` the pipeline reads:
route params, query multi-map (in appearance order), raw headers,
the outcome of `await request.json()` (the parsed JSON body, or the error the
read/parse throws), and the request's own enumerable JS properties together
with the properties it inherits from its prototype chain. -/
structure HttpRequest where
  params : List (String × String)
  query : List (String × String)
  headers : List (String × String)
  json : Except String JsonValue
  ownProps : List (String × String)
  protoProps : List (String × String)

/-! ## Typed parsers (utils.ts) -/

/-- `parseRouteParams`: coerce, `schema.parse`, wrap a `ZodError` in
`ValidationError('Route parameters validation failed')`, rethrow anything else. -/
def parseRouteParams (params : List (String × String)) (schema : ZodSchema) :
    Except Err JsonValue :=
  match schema.parse (JsonValue.obj (convertParamsToObject params)) with
  | Except.ok v => Except.ok v
  | Except.error (SchemaError.zodError e) =>
      Except.error (Err.validationError "Route parameters validation failed" (some e))
  | Except.error (SchemaError.other m) => Except.error (Err.error m)

/-- `parseQueryParams`: coerce the query multi-map, `schema.parse`, wrap a
`ZodError` in `ValidationError('Query parameters validation failed')`. -/
def parseQueryParams (query : List (String × String)) (schema : ZodSchema) :
    Except Err JsonValue :=
  match schema.parse (JsonValue.obj (convertQueryToObject query)) with
  | Except.ok v => Except.ok v
  | Except.error (SchemaError.zodError e) =>
      Except.error (Err.validationError "Query parameters validation failed" (some e))
  | Except.error (SchemaError.other m) => Except.error (Err.error m)

/-- The body parser's content-type gate: `contentType?.includes('application/json')`
with `contentType = request.headers.get('content-type')`; a missing header
yields `undefined`, which is falsy. -/
def contentTypeOk (headers : List (String × String)) : Bool :=
  match headersGet headers "content-type" with
  | some ct => strIncludes ct "application/json"
  | none => false

/-- `parseBody`: gate on the content type, then `await request.json()`
(any failure becomes `ValidationError('Invalid JSON body')`), then
`schema.parse` (a `ZodError` becomes
`ValidationError('Request body validation failed')`, anything else rethrows). -/
def parseBody (request : HttpRequest) (schema : ZodSchema) : Except Err JsonValue :=
  if contentTypeOk request.headers then
    match request.json with
    | Except.error _ => Except.error (Err.validationError "Invalid JSON body" none)
    | Except.ok bodyData =>
        match schema.parse bodyData with
        | Except.ok v => Except.ok v
        | Except.error (SchemaError.zodError e) =>
            Except.error (Err.validationError "Request body validation failed" (some e))
        | Except.error (SchemaError.other m) => Except.error (Err.error m)
  else
    Except.error (Err.validationError "Content-Type must be application/json" none)

/-- `parseHeaders`: lower-case the header names, `schema.parse`, wrap a
`ZodError` in `ValidationError('Request headers validation failed')`. -/
def parseHeaders (headers : List (String × String)) (schema : ZodSchema) :
    Except Err JsonValue :=
  match schema.parse (JsonValue.obj (convertHeadersToObject headers)) with
  | Except.ok v => Except.ok v
  | Except.error (SchemaError.zodError e) =>
      Except.error (Err.validationError "Request headers validation failed" (some e))
  | Except.error (SchemaError.other m) => Except.error (Err.error m)

/-! ## Request orchestrator (endpoint.ts `parseRequest`) -/

/-- The per-route bundle of optional schemas (`RequestSchemas`). -/
structure RequestSchemas where
  params : Option ZodSchema
  query : Option ZodSchema
  body : Option ZodSchema
  headers : Option ZodSchema

/-- A field of the orchestrator's result: either a schema-validated value, or
the original framework value passed through (route params, query multi-map,
header set), or JavaScript `undefined` (the body field when no body schema was
supplied).  `rawBody` never occurs in the orchestrator's output; it expresses
the original framework body value when comparing against the specification. -/
inductive FieldValue where
  | parsed (v : JsonValue) : FieldValue
  | rawParams (p : List (String × String)) : FieldValue
  | rawQuery (q : List (String × String)) : FieldValue
  | rawHeaders (h : List (String × String)) : FieldValue
  | rawBody (b : Except String JsonValue) : FieldValue
  | undefined : FieldValue

/-- The orchestrator's result record. -/
structure ParsedRequest where
  params : FieldValue
  query : FieldValue
  body : FieldValue
  headers : FieldValue

/-- `schemas.params ? parseRouteParams(request.params, schemas.params) : request.params`. -/
def parseParamsPart (request : HttpRequest) (schemas : RequestSchemas) :
    Except Err FieldValue :=
  match schemas.params with
  | some schema =>
      match parseRouteParams request.params schema with
      | Except.ok v => Except.ok (FieldValue.parsed v)
      | Except.error e => Except.error e
  | none => Except.ok (FieldValue.rawParams request.params)

/-- `schemas.query ? parseQueryParams(request.query, schemas.query) : request.query`. -/
def parseQueryPart (request : HttpRequest) (schemas : RequestSchemas) :
    Except Err FieldValue :=
  match schemas.query with
  | some schema =>
      match parseQueryParams request.query schema with
      | Except.ok v => Except.ok (FieldValue.parsed v)
      | Except.error e => Except.error e
  | none => Except.ok (FieldValue.rawQuery request.query)

/-- `schemas.body ? await parseBody(request, schemas.body) : undefined`. -/
def parseBodyPart (request : HttpRequest) (schemas : RequestSchemas) :
    Except Err FieldValue :=
  match schemas.body with
  | some schema =>
      match parseBody request schema with
      | Except.ok v => Except.ok (FieldValue.parsed v)
      | Except.error e => Except.error e
  | none => Except.ok FieldValue.undefined

/-- `schemas.headers ? parseHeaders(request.headers, schemas.headers) : request.headers`. -/
def parseHeadersPart (request : HttpRequest) (schemas : RequestSchemas) :
    Except Err FieldValue :=
  match schemas.headers with
  | some schema =>
      match parseHeaders request.headers schema with
      | Except.ok v => Except.ok (FieldValue.parsed v)
      | Except.error e => Except.error e
  | none => Except.ok (FieldValue.rawHeaders request.headers)

/-- `parseRequest`: runs the four parts in the fixed order params, query, body,
headers; the first exception propagates (nothing is caught here). -/
def parseRequest (request : HttpRequest) (schemas : RequestSchemas) :
    Except Err ParsedRequest :=
  match parseParamsPart request schemas with
  | Except.error e => Except.error e
  | Except.ok parsedParams =>
      match parseQueryPart request schemas with
      | Except.error e => Except.error e
      | Except.ok parsedQuery =>
          match parseBodyPart request schemas with
          | Except.error e => Except.error e
          | Except.ok parsedBody =>
              match parseHeadersPart request schemas with
              | Except.error e => Except.error e
              | Except.ok parsedHeaders =>
                  Except.ok { params := parsedParams, query := parsedQuery,
                              body := parsedBody, headers := parsedHeaders }

/-! ## Safe-request guard (endpoint.ts `createSafeRequest`) -/

/-- The body-consuming method names blocked by `SAFE_REQUEST_PROTOTYPE`. -/
def dangerousMethods : List String := ["json", "text", "formData", "arrayBuffer", "blob"]

/-- The message of the throwing getter `SAFE_REQUEST_PROTOTYPE` installs for a
blocked method. -/
def guardMessage (method : String) : String :=
  "Cannot call request." ++ method ++ "() - body has already been parsed by the typed handler wrapper. " ++
  "The parsed body is available in the \x27body\x27 parameter of your handler. " ++
  "If you need the raw request, use the regular \x27handler\x27 instead of \x27typedHandler\x27."

/-- The object handed to the user handler: either the original request
unchanged, or the guarded view (a fresh object over `SAFE_REQUEST_PROTOTYPE`
holding the copied own properties). -/
inductive ReqView where
  | original (r : HttpRequest) : ReqView
  | safe (ownProps : List (String × String)) : ReqView

/-- `Object.assign(safeRequest, request)`: copies the source's own enumerable
properties in order via `[[Set]]`.  Setting a key whose only definition on the
target's prototype is a getter without a setter (exactly the blocked method
names on `SAFE_REQUEST_PROTOTYPE`) throws a `TypeError`. -/
def assignOwnProps (target : List (String × String)) :
    List (String × String) → Except Err (List (String × String))
  | [] => Except.ok target
  | (k, v) :: rest =>
      if k ∈ dangerousMethods then
        Except.error (Err.error ("TypeError: Cannot set property " ++ k))
      else
        assignOwnProps (setKey target k v) rest

/-- `createSafeRequest`: return the request itself when the body was not
parsed; otherwise build a fresh object over the throwing prototype and copy
the request's own enumerable properties onto it. -/
def createSafeRequest (request : HttpRequest) (bodyWasParsed : Bool) :
    Except Err ReqView :=
  if !bodyWasParsed then
    Except.ok (ReqView.original request)
  else
    match assignOwnProps [] request.ownProps with
    | Except.ok copied => Except.ok (ReqView.safe copied)
    | Except.error e => Except.error e

/-- Property read on the original request: own properties first, then the
prototype chain, then `undefined`. -/
def getPropReq (r : HttpRequest) (name : String) : PropRead :=
  match lookupKey r.ownProps name with
  | some v => PropRead.val v
  | none =>
      match lookupKey r.protoProps name with
      | some v => PropRead.val v
      | none => PropRead.undef

/-- Property read on the view handed to the handler.  On the guarded view the
own (copied) properties are consulted first; failing that, the prototype is
`SAFE_REQUEST_PROTOTYPE`, whose only properties are the throwing getters for
the blocked method names. -/
def getPropView (view : ReqView) (name : String) : PropRead :=
  match view with
  | ReqView.original r => getPropReq r name
  | ReqView.safe own =>
      match lookupKey own name with
      | some v => PropRead.val v
      | none => if name ∈ dangerousMethods then PropRead.raise (guardMessage name) else PropRead.undef

/-! ## Typed-handler dispatcher (endpoint.ts `wrapTypedHandler`) -/

/-- An Azure Functions `HttpResponseInit`, reduced to the fields this pipeline
produces or inspects. -/
structure HttpResponseInit where
  status : Option Nat
  jsonBody : Option JsonValue

/-- The 400 response the dispatcher synthesizes from a caught
`ValidationError`: `{ status: 400, jsonBody: { error: error.message,
details: error.zodError?.issues || [] } }`. -/
def badRequest400 (message : String) (zodError : Option ZodError) : HttpResponseInit :=
  { status := some 400,
    jsonBody := some (JsonValue.obj
      [("error", JsonValue.str message),
       ("details", JsonValue.arr (((zodError.map ZodError.issues).getD []).map JsonValue.str))]) }

/-- The arguments handed to the user's typed handler
(`{params, query, body, headers, request, context}`; the invocation context is
passed through unchanged and omitted here). -/
structure TypedHandlerArgs where
  params : FieldValue
  query : FieldValue
  body : FieldValue
  headers : FieldValue
  request : ReqView

/-- A user typed handler: returns a response or throws. -/
def TypedHandler : Type := TypedHandlerArgs → Except Err HttpResponseInit

/-- The dispatcher's `catch` block: a `ValidationError` becomes the 400
response; every other error is rethrown; a produced response passes through. -/
def catchValidationErrors (result : Except Err HttpResponseInit) :
    Except Err HttpResponseInit :=
  match result with
  | Except.error (Err.validationError message zodError) =>
      Except.ok (badRequest400 message zodError)
  | other => other

/-- `wrapTypedHandler`: parse the request, build the safe view
(guard active iff `schemas.body !== undefined`), invoke the handler, and run
the whole of it inside the try/catch that converts `ValidationError` to 400. -/
def wrapTypedHandler (schemas : RequestSchemas) (handler : TypedHandler)
    (request : HttpRequest) : Except Err HttpResponseInit :=
  catchValidationErrors
    (match parseRequest request schemas with
     | Except.error e => Except.error e
     | Except.ok parsed =>
         match createSafeRequest request schemas.body.isSome with
         | Except.error e => Except.error e
         | Except.ok safeRequest =>
             handler { params := parsed.params, query := parsed.query,
                       body := parsed.body, headers := parsed.headers,
                       request := safeRequest })

/-! ## Association-list lemmas -/

theorem lookupKey_setKey_self {α : Type} (l : List (String × α)) (k : String) (v : α) :
    lookupKey (setKey l k v) k = some v := by
  induction l with
  | nil => simp [setKey, lookupKey]
  | cons hd tl ih =>
      rcases hd with ⟨k2, v2⟩
      by_cases h : k2 = k
      · subst h; simp [setKey, lookupKey]
      · simp [setKey, lookupKey, h, ih]

theorem lookupKey_setKey_ne {α : Type} (l : List (String × α)) (k key : String) (v : α)
    (h : k ≠ key) : lookupKey (setKey l k v) key = lookupKey l key := by
  induction l with
  | nil => simp [setKey, lookupKey, h]
  | cons hd tl ih =>
      rcases hd with ⟨k2, v2⟩
      by_cases h2 : k2 = k
      · subst h2; simp [setKey, lookupKey, h]
      · by_cases h3 : k2 = key
        · subst h3; simp [setKey, lookupKey, h2]
        · simp [setKey, lookupKey, h2, h3, ih]

theorem setKey_of_lookup_none {α : Type} (l : List (String × α)) (k : String) (v : α)
    (h : lookupKey l k = none) : setKey l k v = l ++ [(k, v)] := by
  induction l with
  | nil => simp [setKey]
  | cons hd tl ih =>
      rcases hd with ⟨k2, v2⟩
      by_cases h2 : k2 = k
      · subst h2; simp [lookupKey] at h
      · simp [lookupKey, h2] at h
        simp [setKey, h2, ih h]

theorem lookupKey_append {α : Type} (l1 l2 : List (String × α)) (key : String) :
    lookupKey (l1 ++ l2) key =
      match lookupKey l1 key with
      | some v => some v
      | none => lookupKey l2 key := by
  induction l1 with
  | nil => simp [lookupKey]
  | cons hd tl ih =>
      rcases hd with ⟨k2, v2⟩
      by_cases h2 : k2 = key
      · subst h2; simp [lookupKey]
      · simp [lookupKey, h2, ih]

/-! ## Folding behaviour of `convertQueryToObject` (claim C9) -/

/-- The values attached to one query key, in appearance order. -/
def queryValues : List (String × String) → String → List String
  | [], _ => []
  | (k, v) :: rest, key =>
      if k = key then v :: queryValues rest key else queryValues rest key

/-- The shape the adapter is supposed to give one key: absent for no
occurrence, the bare string for exactly one, the ordered array for several. -/
def foldedQueryValue : List String → Option JsonValue
  | [] => none
  | [v] => some (JsonValue.str v)
  | v :: w :: rest => some (JsonValue.arr ((v :: w :: rest).map JsonValue.str))

theorem lookupKey_queryFoldStep_ne (acc : List (String × JsonValue)) (k0 v0 key : String)
    (h : k0 ≠ key) : lookupKey (queryFoldStep acc (k0, v0)) key = lookupKey acc key := by
  unfold queryFoldStep
  rcases h0 : lookupKey acc (k0, v0).fst with _ | val
  · simp [lookupKey_setKey_ne _ _ _ _ h]
  · cases val <;> simp [lookupKey_setKey_ne _ _ _ _ h]

theorem lookupKey_foldl_queryFoldStep (query : List (String × String)) :
    ∀ (acc : List (String × JsonValue)) (f : String → List String),
      (∀ k, lookupKey acc k = foldedQueryValue (f k)) →
      ∀ key, lookupKey (query.foldl queryFoldStep acc) key =
        foldedQueryValue (f key ++ queryValues query key) := by
  induction query with
  | nil =>
      intro acc f hacc key
      simpa [queryValues] using hacc key
  | cons kv rest ih =>
      rcases kv with ⟨k0, v0⟩
      intro acc f hacc key
      rw [List.foldl_cons]
      have hacc2 : ∀ k, lookupKey (queryFoldStep acc (k0, v0)) k =
          foldedQueryValue (f k ++ if k0 = k then [v0] else []) := by
        intro k
        by_cases hk : k0 = k
        · subst hk
          have h0 := hacc k0
          rcases hf : f k0 with _ | ⟨a, tail⟩
          · rw [hf] at h0
            simp only [foldedQueryValue] at h0
            simp [queryFoldStep, h0, lookupKey_setKey_self, hf, foldedQueryValue]
          · rcases tail with _ | ⟨b, l⟩
            · rw [hf] at h0
              simp only [foldedQueryValue] at h0
              simp [queryFoldStep, h0, lookupKey_setKey_self, hf, foldedQueryValue]
            · rw [hf] at h0
              simp only [foldedQueryValue, List.map_cons] at h0
              simp [queryFoldStep, h0, lookupKey_setKey_self, hf, foldedQueryValue]
        · rw [lookupKey_queryFoldStep_ne acc k0 v0 k hk]
          simp [hacc k, hk]
      have hrec := ih (queryFoldStep acc (k0, v0))
        (fun k => f k ++ if k0 = k then [v0] else []) hacc2 key
      rw [hrec]
      by_cases hk : k0 = key
      · subst hk; simp [queryValues]
      · simp [queryValues, hk]

/-- C9: `convertQueryToObject` maps a key appearing exactly once to its bare
string value (not a one-element array) and a key appearing several times to
the ordered array of all its values in appearance order; in particular
`?tag=a&tag=b` yields `{ tag: ["a", "b"] }` and `?tag=a` yields `{ tag: "a" }`. -/
theorem convertQueryToObject_folding :
    (∀ (query : List (String × String)) (key : String),
      lookupKey (convertQueryToObject query) key = foldedQueryValue (queryValues query key)) ∧
    convertQueryToObject [("tag", "a"), ("tag", "b")] =
      [("tag", JsonValue.arr [JsonValue.str "a", JsonValue.str "b"])] ∧
    convertQueryToObject [("tag", "a")] = [("tag", JsonValue.str "a")] := by
  refine ⟨?_, rfl, rfl⟩
  intro query key
  have h := lookupKey_foldl_queryFoldStep query [] (fun _ => [])
    (by intro k; simp [lookupKey, foldedQueryValue]) key
  simpa [convertQueryToObject] using h

/-! ## Orchestrator decomposition lemmas -/

theorem parseRequest_ok_parts (request : HttpRequest) (schemas : RequestSchemas)
    (pr : ParsedRequest) (h : parseRequest request schemas = Except.ok pr) :
    parseParamsPart request schemas = Except.ok pr.params ∧
    parseQueryPart request schemas = Except.ok pr.query ∧
    parseBodyPart request schemas = Except.ok pr.body ∧
    parseHeadersPart request schemas = Except.ok pr.headers := by
  unfold parseRequest at h
  rcases hp : parseParamsPart request schemas with ep | vp <;> rw [hp] at h
  · simp at h
  rcases hq : parseQueryPart request schemas with eq2 | vq <;> rw [hq] at h
  · simp at h
  rcases hb : parseBodyPart request schemas with eb | vb <;> rw [hb] at h
  · simp at h
  rcases hh : parseHeadersPart request schemas with eh | vh <;> rw [hh] at h
  · simp at h
  simp only [Except.ok.injEq] at h
  subst h
  exact ⟨rfl, rfl, rfl, rfl⟩

theorem parseRequest_error_parts (request : HttpRequest) (schemas : RequestSchemas)
    (err : Err) (h : parseRequest request schemas = Except.error err) :
    parseParamsPart request schemas = Except.error err ∨
    parseQueryPart request schemas = Except.error err ∨
    parseBodyPart request schemas = Except.error err ∨
    parseHeadersPart request schemas = Except.error err := by
  unfold parseRequest at h
  rcases hp : parseParamsPart request schemas with ep | vp <;> rw [hp] at h
  · simp at h; subst h; exact Or.inl rfl
  rcases hq : parseQueryPart request schemas with eq2 | vq <;> rw [hq] at h
  · simp at h; subst h; exact Or.inr (Or.inl rfl)
  rcases hb : parseBodyPart request schemas with eb | vb <;> rw [hb] at h
  · simp at h; subst h; exact Or.inr (Or.inr (Or.inl rfl))
  rcases hh : parseHeadersPart request schemas with eh | vh <;> rw [hh] at h
  · simp at h; subst h; exact Or.inr (Or.inr (Or.inr rfl))
  simp at h

/-! ## Claim C1 -/

/-- A request with route params, a query entry, a JSON body and headers,
used as the sample input for concrete evaluations. -/
def sampleRequest : HttpRequest :=
  { params := [("id", "42")],
    query := [("tag", "a")],
    headers := [("Content-Type", "application/json")],
    json := Except.ok (JsonValue.obj [("title", JsonValue.str "x")]),
    ownProps := [("url", "http://localhost/api/todos")],
    protoProps := [("method", "GET"), ("json", "fn:json")] }

/-- The bundle with no schema supplied for any part. -/
def emptySchemas : RequestSchemas :=
  { params := none, query := none, body := none, headers := none }

/-- What the orchestrator produces for `sampleRequest` under `emptySchemas`. -/
def samplePassthrough : ParsedRequest :=
  { params := FieldValue.rawParams sampleRequest.params,
    query := FieldValue.rawQuery sampleRequest.query,
    body := FieldValue.undefined,
    headers := FieldValue.rawHeaders sampleRequest.headers }

/-- C1 (amended): for every bundle field without a schema, the params, query
and headers fields of the `ParsedRequest` are the original unvalidated
framework values; the body field, however, is `undefined` when no body schema
was supplied — the original body is not passed through. -/
theorem parseRequest_passthrough (request : HttpRequest) (schemas : RequestSchemas)
    (pr : ParsedRequest) (h : parseRequest request schemas = Except.ok pr) :
    (schemas.params = none → pr.params = FieldValue.rawParams request.params) ∧
    (schemas.query = none → pr.query = FieldValue.rawQuery request.query) ∧
    (schemas.headers = none → pr.headers = FieldValue.rawHeaders request.headers) ∧
    (schemas.body = none → pr.body = FieldValue.undefined) := by
  obtain ⟨hp, hq, hb, hh⟩ := parseRequest_ok_parts request schemas pr h
  refine ⟨?_, ?_, ?_, ?_⟩
  · intro hnone; simp [parseParamsPart, hnone] at hp; exact hp.symm
  · intro hnone; simp [parseQueryPart, hnone] at hq; exact hq.symm
  · intro hnone; simp [parseHeadersPart, hnone] at hh; exact hh.symm
  · intro hnone; simp [parseBodyPart, hnone] at hb; exact hb.symm

/-- C1 counterexample: with no body schema the body field of the parsed
request is JavaScript `undefined`, not the original framework body value. -/
theorem parseRequest_body_not_original :
    parseRequest sampleRequest emptySchemas = Except.ok samplePassthrough ∧
    samplePassthrough.body = FieldValue.undefined ∧
    samplePassthrough.body ≠ FieldValue.rawBody sampleRequest.json := by
  refine ⟨rfl, rfl, ?_⟩
  intro hcontra
  exact FieldValue.noConfusion hcontra

/-- C1 witness: the passthrough theorem applied to the sample request with the
empty bundle. -/
theorem parseRequest_passthrough_witness :
    samplePassthrough.params = FieldValue.rawParams sampleRequest.params ∧
    samplePassthrough.query = FieldValue.rawQuery sampleRequest.query ∧
    samplePassthrough.body = FieldValue.undefined := by
  have h := parseRequest_passthrough sampleRequest emptySchemas samplePassthrough rfl
  exact ⟨h.1 rfl, h.2.1 rfl, h.2.2.2 rfl⟩

/-! ## Claim C2 -/

/-- C2: when the query schema rejects (and the params step passed), the
orchestrator stops with the query `ValidationError` — uncaught, regardless of
the body schema (which may itself reject everything); the second conjunct
shows the outcome does not depend on the request body at all, i.e. the body
is never read. -/
theorem parseRequest_failfast (request : HttpRequest) (schemas : RequestSchemas)
    (qs bs : ZodSchema) (e : ZodError)
    (hq : schemas.query = some qs)
    (hb : schemas.body = some bs)
    (hqfail : qs.parse (JsonValue.obj (convertQueryToObject request.query)) =
      Except.error (SchemaError.zodError e))
    (hbfail : ∀ v, ∃ se, bs.parse v = Except.error se)
    (hparams : ∃ p, parseParamsPart request schemas = Except.ok p) :
    parseRequest request schemas =
      Except.error (Err.validationError "Query parameters validation failed" (some e)) ∧
    ∀ j, parseRequest { request with json := j } schemas =
      Except.error (Err.validationError "Query parameters validation failed" (some e)) := by
  obtain ⟨p, hp⟩ := hparams
  have hquery : ∀ r : HttpRequest, r.query = request.query →
      parseQueryPart r schemas =
        Except.error (Err.validationError "Query parameters validation failed" (some e)) := by
    intro r hr
    simp [parseQueryPart, parseQueryParams, hq, hr, hqfail]
  constructor
  · unfold parseRequest
    rw [hp, hquery request rfl]
  · intro j
    have hp2 : parseParamsPart { request with json := j } schemas = Except.ok p := hp
    unfold parseRequest
    rw [hp2, hquery { request with json := j } rfl]

/-- A schema that rejects every input with a single issue. -/
def rejectAllSchema : ZodSchema :=
  { parse := fun _ => Except.error (SchemaError.zodError { issues := ["bad input"] }) }

/-- A bundle whose query and body schemas both reject everything. -/
def failfastSchemas : RequestSchemas :=
  { params := none, query := some rejectAllSchema,
    body := some rejectAllSchema, headers := none }

/-- C2 witness: on the sample request, the bundle rejecting both query and
body produces exactly the query validation error. -/
theorem parseRequest_failfast_witness :
    parseRequest sampleRequest failfastSchemas =
      Except.error (Err.validationError "Query parameters validation failed"
        (some { issues := ["bad input"] })) := by
  have h := parseRequest_failfast sampleRequest failfastSchemas rejectAllSchema rejectAllSchema
    { issues := ["bad input"] } rfl rfl rfl
    (fun v => ⟨SchemaError.zodError { issues := ["bad input"] }, rfl⟩)
    ⟨FieldValue.rawParams sampleRequest.params, rfl⟩
  exact h.1

/-! ## Claim C3 -/

/-- The argument record the dispatcher hands to the typed handler
(`{params, query, body, headers, request, context}`). -/
def mkArgs (pr : ParsedRequest) (view : ReqView) : TypedHandlerArgs :=
  { params := pr.params, query := pr.query, body := pr.body,
    headers := pr.headers, request := view }

/-- On a successfully parsed request the dispatcher is the handler applied to
the parsed arguments, run under the `ValidationError`-catching wrapper. -/
theorem wrapTypedHandler_dispatch (schemas : RequestSchemas) (handler : TypedHandler)
    (request : HttpRequest) (pr : ParsedRequest) (view : ReqView)
    (hp : parseRequest request schemas = Except.ok pr)
    (hv : createSafeRequest request schemas.body.isSome = Except.ok view) :
    wrapTypedHandler schemas handler request = catchValidationErrors (handler (mkArgs pr view)) := by
  unfold wrapTypedHandler
  rw [hp, hv]
  rfl

/-- C3 (amended): an error the user handler throws propagates unchanged
through the dispatcher when it is not a `ValidationError`; a `ValidationError`
thrown by the handler, however, is caught by the same try/catch and converted
to a 400 response (the dispatcher cannot tell it apart from a parsing
failure); a produced response passes through untouched. -/
theorem wrapTypedHandler_handler_errors (schemas : RequestSchemas) (handler : TypedHandler)
    (request : HttpRequest) (pr : ParsedRequest) (view : ReqView)
    (hp : parseRequest request schemas = Except.ok pr)
    (hv : createSafeRequest request schemas.body.isSome = Except.ok view) :
    (∀ m, handler (mkArgs pr view) = Except.error (Err.error m) →
        wrapTypedHandler schemas handler request = Except.error (Err.error m)) ∧
    (∀ m z, handler (mkArgs pr view) = Except.error (Err.validationError m z) →
        wrapTypedHandler schemas handler request = Except.ok (badRequest400 m z)) ∧
    (∀ r, handler (mkArgs pr view) = Except.ok r →
        wrapTypedHandler schemas handler request = Except.ok r) := by
  have hdisp := wrapTypedHandler_dispatch schemas handler request pr view hp hv
  refine ⟨?_, ?_, ?_⟩
  · intro m hhandler
    rw [hdisp, hhandler]
    rfl
  · intro m z hhandler
    rw [hdisp, hhandler]
    rfl
  · intro r hhandler
    rw [hdisp, hhandler]
    rfl

/-- C3 counterexample: a `ValidationError` raised by the user handler itself
(after successful parsing) is caught by the dispatcher and turned into a 400
response instead of propagating. -/
theorem wrapTypedHandler_catches_handler_validationError :
    wrapTypedHandler emptySchemas
        (fun _ => Except.error (Err.validationError "thrown by user handler" none))
        sampleRequest =
      Except.ok (badRequest400 "thrown by user handler" none) ∧
    badRequest400 "thrown by user handler" none =
      { status := some 400,
        jsonBody := some (JsonValue.obj
          [("error", JsonValue.str "thrown by user handler"),
           ("details", JsonValue.arr [])]) } :=
  ⟨rfl, rfl⟩

/-- C3 witness: a non-`ValidationError` error thrown by the handler passes
through the dispatcher unchanged. -/
theorem wrapTypedHandler_handler_errors_witness :
    wrapTypedHandler emptySchemas (fun _ => Except.error (Err.error "boom")) sampleRequest =
      Except.error (Err.error "boom") := by
  have h := wrapTypedHandler_handler_errors emptySchemas
    (fun _ => Except.error (Err.error "boom")) sampleRequest samplePassthrough
    (ReqView.original sampleRequest) rfl rfl
  exact h.1 "boom" rfl

/-! ## Claim C4 -/

theorem parseRouteParams_zod_msg (params : List (String × String)) (schema : ZodSchema)
    (msg : String) (e : ZodError)
    (h : parseRouteParams params schema = Except.error (Err.validationError msg (some e))) :
    msg = "Route parameters validation failed" := by
  unfold parseRouteParams at h
  rcases hs : schema.parse (JsonValue.obj (convertParamsToObject params)) with se | v
  · rcases se with e2 | m2
    · rw [hs] at h; simp at h; exact h.1.symm
    · rw [hs] at h; simp at h
  · rw [hs] at h; simp at h

theorem parseQueryParams_zod_msg (query : List (String × String)) (schema : ZodSchema)
    (msg : String) (e : ZodError)
    (h : parseQueryParams query schema = Except.error (Err.validationError msg (some e))) :
    msg = "Query parameters validation failed" := by
  unfold parseQueryParams at h
  rcases hs : schema.parse (JsonValue.obj (convertQueryToObject query)) with se | v
  · rcases se with e2 | m2
    · rw [hs] at h; simp at h; exact h.1.symm
    · rw [hs] at h; simp at h
  · rw [hs] at h; simp at h

theorem parseHeaders_zod_msg (headers : List (String × String)) (schema : ZodSchema)
    (msg : String) (e : ZodError)
    (h : parseHeaders headers schema = Except.error (Err.validationError msg (some e))) :
    msg = "Request headers validation failed" := by
  unfold parseHeaders at h
  rcases hs : schema.parse (JsonValue.obj (convertHeadersToObject headers)) with se | v
  · rcases se with e2 | m2
    · rw [hs] at h; simp at h; exact h.1.symm
    · rw [hs] at h; simp at h
  · rw [hs] at h; simp at h

theorem parseBody_zod_msg (request : HttpRequest) (schema : ZodSchema)
    (msg : String) (e : ZodError)
    (h : parseBody request schema = Except.error (Err.validationError msg (some e))) :
    msg = "Request body validation failed" := by
  unfold parseBody at h
  rcases hct : contentTypeOk request.headers
  · rw [hct] at h; simp at h
  · rw [hct] at h
    simp only [if_true, ite_true] at h
    rcases hj : request.json with m | v
    · rw [hj] at h; simp at h
    · rw [hj] at h
      simp only [] at h
      rcases hs : schema.parse v with se | v2
      · rcases se with e2 | m2
        · rw [hs] at h; simp at h; exact h.1.symm
        · rw [hs] at h; simp at h
      · rw [hs] at h; simp at h

theorem parseParamsPart_error (request : HttpRequest) (schemas : RequestSchemas) (err : Err)
    (h : parseParamsPart request schemas = Except.error err) :
    ∃ schema, schemas.params = some schema ∧
      parseRouteParams request.params schema = Except.error err := by
  unfold parseParamsPart at h
  rcases hs : schemas.params with _ | schema
  · rw [hs] at h; simp at h
  · rw [hs] at h
    simp only [] at h
    rcases hr : parseRouteParams request.params schema with e2 | v
    · rw [hr] at h; simp at h; subst h; exact ⟨schema, rfl, hr⟩
    · rw [hr] at h; simp at h

theorem parseQueryPart_error (request : HttpRequest) (schemas : RequestSchemas) (err : Err)
    (h : parseQueryPart request schemas = Except.error err) :
    ∃ schema, schemas.query = some schema ∧
      parseQueryParams request.query schema = Except.error err := by
  unfold parseQueryPart at h
  rcases hs : schemas.query with _ | schema
  · rw [hs] at h; simp at h
  · rw [hs] at h
    simp only [] at h
    rcases hr : parseQueryParams request.query schema with e2 | v
    · rw [hr] at h; simp at h; subst h; exact ⟨schema, rfl, hr⟩
    · rw [hr] at h; simp at h

theorem parseBodyPart_error (request : HttpRequest) (schemas : RequestSchemas) (err : Err)
    (h : parseBodyPart request schemas = Except.error err) :
    ∃ schema, schemas.body = some schema ∧
      parseBody request schema = Except.error err := by
  unfold parseBodyPart at h
  rcases hs : schemas.body with _ | schema
  · rw [hs] at h; simp at h
  · rw [hs] at h
    simp only [] at h
    rcases hr : parseBody request schema with e2 | v
    · rw [hr] at h; simp at h; subst h; exact ⟨schema, rfl, hr⟩
    · rw [hr] at h; simp at h

theorem parseHeadersPart_error (request : HttpRequest) (schemas : RequestSchemas) (err : Err)
    (h : parseHeadersPart request schemas = Except.error err) :
    ∃ schema, schemas.headers = some schema ∧
      parseHeaders request.headers schema = Except.error err := by
  unfold parseHeadersPart at h
  rcases hs : schemas.headers with _ | schema
  · rw [hs] at h; simp at h
  · rw [hs] at h
    simp only [] at h
    rcases hr : parseHeaders request.headers schema with e2 | v
    · rw [hr] at h; simp at h; subst h; exact ⟨schema, rfl, hr⟩
    · rw [hr] at h; simp at h

theorem parseRequest_zod_message (request : HttpRequest) (schemas : RequestSchemas)
    (msg : String) (e : ZodError)
    (h : parseRequest request schemas = Except.error (Err.validationError msg (some e))) :
    msg = "Route parameters validation failed" ∨ msg = "Query parameters validation failed" ∨
    msg = "Request body validation failed" ∨ msg = "Request headers validation failed" := by
  rcases parseRequest_error_parts request schemas _ h with hp | hq | hb | hh
  · obtain ⟨schema, _, hr⟩ := parseParamsPart_error request schemas _ hp
    exact Or.inl (parseRouteParams_zod_msg request.params schema msg e hr)
  · obtain ⟨schema, _, hr⟩ := parseQueryPart_error request schemas _ hq
    exact Or.inr (Or.inl (parseQueryParams_zod_msg request.query schema msg e hr))
  · obtain ⟨schema, _, hr⟩ := parseBodyPart_error request schemas _ hb
    exact Or.inr (Or.inr (Or.inl (parseBody_zod_msg request schema msg e hr)))
  · obtain ⟨schema, _, hr⟩ := parseHeadersPart_error request schemas _ hh
    exact Or.inr (Or.inr (Or.inr (parseHeaders_zod_msg request.headers schema msg e hr)))

/-- C4: whenever a typed parser rejects, the dispatcher returns exactly
`{ status: 400, jsonBody: { error: <message>, details: <issues or []> } }`
with `details` the issue list attached to the `ValidationError` (empty when
none is attached), and when a `ZodError` is attached (a schema rejection) the
message is the rejecting parser's part-specific one. -/
theorem wrapTypedHandler_badRequest (schemas : RequestSchemas) (handler : TypedHandler)
    (request : HttpRequest) (msg : String) (z : Option ZodError)
    (h : parseRequest request schemas = Except.error (Err.validationError msg z)) :
    wrapTypedHandler schemas handler request =
      Except.ok { status := some 400,
                  jsonBody := some (JsonValue.obj
                    [("error", JsonValue.str msg),
                     ("details",
                      JsonValue.arr (((z.map ZodError.issues).getD []).map JsonValue.str))]) } ∧
    (∀ e, z = some e →
      msg = "Route parameters validation failed" ∨ msg = "Query parameters validation failed" ∨
      msg = "Request body validation failed" ∨ msg = "Request headers validation failed") := by
  constructor
  · unfold wrapTypedHandler
    rw [h]
    rfl
  · intro e hz
    subst hz
    exact parseRequest_zod_message request schemas msg e h

/-- C4 witness: the rejecting query schema yields the 400 response with the
query-specific message and the attached issue list. -/
theorem wrapTypedHandler_badRequest_witness :
    wrapTypedHandler failfastSchemas (fun _ => Except.ok { status := some 200, jsonBody := none })
        sampleRequest =
      Except.ok { status := some 400,
                  jsonBody := some (JsonValue.obj
                    [("error", JsonValue.str "Query parameters validation failed"),
                     ("details", JsonValue.arr [JsonValue.str "bad input"])]) } := by
  have h := wrapTypedHandler_badRequest failfastSchemas
    (fun _ => Except.ok { status := some 200, jsonBody := none }) sampleRequest
    "Query parameters validation failed" (some { issues := ["bad input"] }) rfl
  exact h.1

/-! ## Claim C5 -/

/-- C5: when the content-type header is absent or does not contain
`application/json`, the body parser fails with exactly
`ValidationError("Content-Type must be application/json")`; the second
conjunct shows the same error results for every body and every schema, i.e.
the failure happens before the body is read or JSON parsing is attempted. -/
theorem parseBody_contentType_gate (request : HttpRequest) (schema : ZodSchema)
    (h : ∀ ct, headersGet request.headers "content-type" = some ct →
      strIncludes ct "application/json" = false) :
    parseBody request schema =
      Except.error (Err.validationError "Content-Type must be application/json" none) ∧
    ∀ j schema2, parseBody { request with json := j } schema2 =
      Except.error (Err.validationError "Content-Type must be application/json" none) := by
  have hct : contentTypeOk request.headers = false := by
    unfold contentTypeOk
    rcases hg : headersGet request.headers "content-type" with _ | ct
    · rfl
    · simpa using h ct hg
  constructor
  · simp [parseBody, hct]
  · intro j schema2
    have hct2 : contentTypeOk ({ request with json := j } : HttpRequest).headers = false := hct
    simp [parseBody, hct2]

/-- A request carrying a plain-text content type. -/
def textPlainRequest : HttpRequest :=
  { params := [], query := [], headers := [("content-type", "text/plain")],
    json := Except.ok JsonValue.null, ownProps := [], protoProps := [] }

/-- C5 witness: the gate fires on `content-type: text/plain`. -/
theorem parseBody_contentType_gate_witness :
    parseBody textPlainRequest rejectAllSchema =
      Except.error (Err.validationError "Content-Type must be application/json" none) := by
  have h := parseBody_contentType_gate textPlainRequest rejectAllSchema ?_
  · exact h.1
  · intro ct hct
    have hg : headersGet textPlainRequest.headers "content-type" = some "text/plain" := by rfl
    rw [hg] at hct
    injection hct with h2
    subst h2
    rfl

/-! ## Claim C6 -/

/-- C6: with a JSON content type but a body that fails to parse as JSON, the
body parser fails with `ValidationError("Invalid JSON body")` for every
schema — so schema validation never runs and the failure is distinct from a
schema-validation failure. -/
theorem parseBody_invalidJson (request : HttpRequest)
    (hct : contentTypeOk request.headers = true)
    (m : String) (hjson : request.json = Except.error m) :
    (∀ schema, parseBody request schema =
      Except.error (Err.validationError "Invalid JSON body" none)) ∧
    (∀ schema z, parseBody request schema ≠
      Except.error (Err.validationError "Request body validation failed" z)) := by
  have hmain : ∀ schema : ZodSchema, parseBody request schema =
      Except.error (Err.validationError "Invalid JSON body" none) := by
    intro schema
    simp [parseBody, hct, hjson]
  refine ⟨hmain, ?_⟩
  intro schema z hcontra
  rw [hmain schema] at hcontra
  injection hcontra with h1
  injection h1 with h2 h3
  exact absurd h2 (by decide)

/-- A request whose body read fails to parse as JSON. -/
def badJsonRequest : HttpRequest :=
  { params := [], query := [], headers := [("content-type", "application/json")],
    json := Except.error "Unexpected token", ownProps := [], protoProps := [] }

/-- C6 witness: the malformed-body request yields the invalid-JSON error even
under a schema that rejects everything. -/
theorem parseBody_invalidJson_witness :
    parseBody badJsonRequest rejectAllSchema =
      Except.error (Err.validationError "Invalid JSON body" none) :=
  (parseBody_invalidJson badJsonRequest (by rfl) "Unexpected token" rfl).1 rejectAllSchema

/-! ## Safe-request guard lemmas (claims C7, C8) -/

theorem assignOwnProps_fresh (props : List (String × String)) :
    ∀ target : List (String × String),
      (∀ k ∈ props.map Prod.fst, k ∉ dangerousMethods) →
      (∀ k ∈ props.map Prod.fst, lookupKey target k = none) →
      (props.map Prod.fst).Nodup →
      assignOwnProps target props = Except.ok (target ++ props) := by
  induction props with
  | nil => intro target _ _ _; simp [assignOwnProps]
  | cons kv rest ih =>
      rcases kv with ⟨k, v⟩
      intro target hclean hfresh hnodup
      have hk : k ∉ dangerousMethods := hclean k (by simp)
      have hkt : lookupKey target k = none := hfresh k (by simp)
      have hknotrest : k ∉ rest.map Prod.fst := by
        simp only [List.map_cons, List.nodup_cons] at hnodup
        exact hnodup.1
      unfold assignOwnProps
      rw [if_neg hk, setKey_of_lookup_none target k v hkt]
      have hrec := ih (target ++ [(k, v)])
        (fun k2 hk2 => hclean k2 (by simp [hk2]))
        (fun k2 hk2 => by
          rw [lookupKey_append]
          rw [hfresh k2 (by simp [hk2])]
          have hne : k ≠ k2 := by
            intro hcontra
            subst hcontra
            exact hknotrest hk2
          simp [lookupKey, hne])
        (by simp only [List.map_cons, List.nodup_cons] at hnodup; exact hnodup.2)
      rw [hrec]
      simp

theorem createSafeRequest_clean (request : HttpRequest)
    (hnodup : (request.ownProps.map Prod.fst).Nodup)
    (hclean : ∀ k ∈ request.ownProps.map Prod.fst, k ∉ dangerousMethods) :
    createSafeRequest request true = Except.ok (ReqView.safe request.ownProps) := by
  unfold createSafeRequest
  rw [assignOwnProps_fresh request.ownProps [] hclean (fun k _ => rfl) hnodup]
  simp

theorem lookupKey_none_of_clean (own : List (String × String)) (m : String)
    (hclean : ∀ k ∈ own.map Prod.fst, k ∉ dangerousMethods)
    (hm : m ∈ dangerousMethods) : lookupKey own m = none := by
  induction own with
  | nil => rfl
  | cons kv rest ih =>
      rcases kv with ⟨k, v⟩
      have hne : k ≠ m := by
        intro hcontra
        subst hcontra
        exact hclean k (by simp) hm
      simp only [lookupKey, if_neg hne]
      exact ih (fun k2 hk2 => hclean k2 (by simp [hk2]))

theorem getPropView_safe_raises (own : List (String × String)) (m : String)
    (hm : m ∈ dangerousMethods) (hown : lookupKey own m = none) :
    getPropView (ReqView.safe own) m = PropRead.raise (guardMessage m) := by
  simp [getPropView, hown, hm]

/-! ## Claim C7 -/

/-- C7: when a body schema is present, the dispatcher hands the handler the
guarded view, on which reading any of the five body-consuming accessors
raises the guard error (whose text mentions that the body has
"already been parsed"); when no body schema is present the handler receives
the original request object unchanged, whose properties all behave normally.
The side conditions say the request's own enumerable properties have distinct
names, none of which collides with a blocked method name (true of the
framework's request objects, whose methods live on the class prototype). -/
theorem wrapTypedHandler_guard (schemas : RequestSchemas) (handler : TypedHandler)
    (request : HttpRequest) (pr : ParsedRequest)
    (hnodup : (request.ownProps.map Prod.fst).Nodup)
    (hclean : ∀ k ∈ request.ownProps.map Prod.fst, k ∉ dangerousMethods)
    (hp : parseRequest request schemas = Except.ok pr) :
    (schemas.body.isSome = true →
      createSafeRequest request schemas.body.isSome =
        Except.ok (ReqView.safe request.ownProps) ∧
      wrapTypedHandler schemas handler request =
        catchValidationErrors (handler (mkArgs pr (ReqView.safe request.ownProps))) ∧
      (∀ m ∈ dangerousMethods,
        getPropView (ReqView.safe request.ownProps) m = PropRead.raise (guardMessage m) ∧
        strIncludes (guardMessage m) "already been parsed" = true)) ∧
    (schemas.body = none →
      createSafeRequest request schemas.body.isSome = Except.ok (ReqView.original request) ∧
      wrapTypedHandler schemas handler request =
        catchValidationErrors (handler (mkArgs pr (ReqView.original request))) ∧
      (∀ m, getPropView (ReqView.original request) m = getPropReq request m)) := by
  constructor
  · intro hb
    rw [hb]
    have hsafe := createSafeRequest_clean request hnodup hclean
    refine ⟨hsafe, ?_, ?_⟩
    · have hv : createSafeRequest request schemas.body.isSome =
          Except.ok (ReqView.safe request.ownProps) := by rw [hb]; exact hsafe
      exact wrapTypedHandler_dispatch schemas handler request pr _ hp hv
    · intro m hm
      refine ⟨getPropView_safe_raises request.ownProps m hm
        (lookupKey_none_of_clean request.ownProps m hclean hm), ?_⟩
      fin_cases hm <;> decide
  · intro hb
    have hfalse : schemas.body.isSome = false := by rw [hb]; rfl
    rw [hfalse]
    refine ⟨rfl, ?_, fun m => rfl⟩
    have hv : createSafeRequest request schemas.body.isSome =
        Except.ok (ReqView.original request) := by rw [hfalse]; rfl
    exact wrapTypedHandler_dispatch schemas handler request pr _ hp hv

/-- A schema that accepts every input unchanged. -/
def acceptAllSchema : ZodSchema := { parse := fun v => Except.ok v }

/-- A JSON request whose own enumerable property is a url, with the
body-reading method inherited from the prototype. -/
def jsonBodyRequest : HttpRequest :=
  { params := [], query := [], headers := [("content-type", "application/json")],
    json := Except.ok (JsonValue.obj [("title", JsonValue.str "x")]),
    ownProps := [("url", "http://localhost/api/todos")],
    protoProps := [("json", "fn:json"), ("method", "POST")] }

/-- A bundle supplying only a body schema. -/
def bodyOnlySchemas : RequestSchemas :=
  { params := none, query := none, body := some acceptAllSchema, headers := none }

/-- The parse result of `jsonBodyRequest` under `bodyOnlySchemas`. -/
def jsonBodyParsed : ParsedRequest :=
  { params := FieldValue.rawParams [], query := FieldValue.rawQuery [],
    body := FieldValue.parsed (JsonValue.obj [("title", JsonValue.str "x")]),
    headers := FieldValue.rawHeaders [("content-type", "application/json")] }

/-- C7 witness: with a body schema the guarded view is produced and its
`json` accessor raises the guard message, which mentions
"already been parsed". -/
theorem wrapTypedHandler_guard_witness :
    createSafeRequest jsonBodyRequest bodyOnlySchemas.body.isSome =
      Except.ok (ReqView.safe jsonBodyRequest.ownProps) ∧
    getPropView (ReqView.safe jsonBodyRequest.ownProps) "json" =
      PropRead.raise (guardMessage "json") ∧
    strIncludes (guardMessage "json") "already been parsed" = true := by
  have h := wrapTypedHandler_guard bodyOnlySchemas
    (fun _ => Except.ok { status := some 200, jsonBody := none }) jsonBodyRequest
    jsonBodyParsed (by decide) (by decide) (by rfl)
  have h1 := h.1 rfl
  exact ⟨h1.1, (h1.2.2 "json" (by decide)).1, (h1.2.2 "json" (by decide)).2⟩

/-! ## Claim C8 -/

/-- C8 (amended): the guarded view snapshots the original request's own
enumerable properties; for every property outside the blocklist that is an
own enumerable property of the original, reading it on the view yields the
same value as reading it on the original.  Properties reachable only through
the original's prototype chain are not carried over (see the counterexample). -/
theorem createSafeRequest_own_passthrough (request : HttpRequest) (name : String) (v : String)
    (hnodup : (request.ownProps.map Prod.fst).Nodup)
    (hclean : ∀ k ∈ request.ownProps.map Prod.fst, k ∉ dangerousMethods)
    (hname : name ∉ dangerousMethods)
    (hv : lookupKey request.ownProps name = some v) :
    createSafeRequest request true = Except.ok (ReqView.safe request.ownProps) ∧
    getPropView (ReqView.safe request.ownProps) name = PropRead.val v ∧
    getPropReq request name = PropRead.val v := by
  refine ⟨createSafeRequest_clean request hnodup hclean, ?_, ?_⟩
  · simp [getPropView, hv]
  · simp [getPropReq, hv]

/-- A request whose only interesting property (`method`) lives on the
prototype chain, as the framework request class's getters do. -/
def protoOnlyRequest : HttpRequest :=
  { params := [], query := [], headers := [], json := Except.ok JsonValue.null,
    ownProps := [], protoProps := [("method", "GET")] }

/-- C8 counterexample: `method` is outside the blocklist, reads as `"GET"` on
the original request, but reads as `undefined` on the guarded view — the view
does not delegate all non-blocklisted property access to the original,
because `Object.assign` only copies own enumerable properties. -/
theorem createSafeRequest_not_full_delegation :
    createSafeRequest protoOnlyRequest true = Except.ok (ReqView.safe []) ∧
    "method" ∉ dangerousMethods ∧
    getPropReq protoOnlyRequest "method" = PropRead.val "GET" ∧
    getPropView (ReqView.safe []) "method" = PropRead.undef ∧
    PropRead.undef ≠ PropRead.val "GET" := by
  refine ⟨by rfl, by decide, by rfl, by decide, by decide⟩

/-- C8 witness: the own enumerable property `url` reads identically on the
guarded view and on the original request. -/
theorem createSafeRequest_own_passthrough_witness :
    createSafeRequest jsonBodyRequest true = Except.ok (ReqView.safe jsonBodyRequest.ownProps) ∧
    getPropView (ReqView.safe jsonBodyRequest.ownProps) "url" =
      PropRead.val "http://localhost/api/todos" ∧
    getPropReq jsonBodyRequest "url" = PropRead.val "http://localhost/api/todos" :=
  createSafeRequest_own_passthrough jsonBodyRequest "url" "http://localhost/api/todos"
    (by decide) (by decide) (by decide) (by rfl)

/-! ## Claim C10 -/

/-- C10: the content-type gate is substring containment, not equality — any
header value containing `application/json` (such as
`application/json; charset=utf-8`, which is not equal to `application/json`)
passes the gate and JSON parsing proceeds, while a request with no
content-type header at all is rejected with the gate's `ValidationError`. -/
theorem parseBody_substring_gate (request : HttpRequest) (schema : ZodSchema) :
    (∀ ct, headersGet request.headers "content-type" = some ct →
      strIncludes ct "application/json" = true →
      parseBody request schema =
        (match request.json with
         | Except.error _ => Except.error (Err.validationError "Invalid JSON body" none)
         | Except.ok bodyData =>
             match schema.parse bodyData with
             | Except.ok v => Except.ok v
             | Except.error (SchemaError.zodError e) =>
                 Except.error (Err.validationError "Request body validation failed" (some e))
             | Except.error (SchemaError.other m) => Except.error (Err.error m))) ∧
    (headersGet request.headers "content-type" = none →
      parseBody request schema =
        Except.error (Err.validationError "Content-Type must be application/json" none)) ∧
    strIncludes "application/json; charset=utf-8" "application/json" = true ∧
    "application/json; charset=utf-8" ≠ "application/json" := by
  refine ⟨?_, ?_, by decide, by decide⟩
  · intro ct hg hinc
    have hct : contentTypeOk request.headers = true := by
      unfold contentTypeOk
      rw [hg]
      exact hinc
    simp [parseBody, hct]
  · intro hg
    have hct : contentTypeOk request.headers = false := by
      unfold contentTypeOk
      rw [hg]
    simp [parseBody, hct]

/-- A request whose content type carries a charset parameter. -/
def charsetRequest : HttpRequest :=
  { params := [], query := [],
    headers := [("Content-Type", "application/json; charset=utf-8")],
    json := Except.ok JsonValue.null, ownProps := [], protoProps := [] }

/-- A request with no content-type header at all. -/
def noContentTypeRequest : HttpRequest :=
  { params := [], query := [], headers := [("accept", "application/json")],
    json := Except.ok JsonValue.null, ownProps := [], protoProps := [] }

/-- C10 witness: the charset-bearing header passes the gate (the body is
parsed), and the header-less request is rejected by the gate. -/
theorem parseBody_substring_gate_witness :
    parseBody charsetRequest acceptAllSchema = Except.ok JsonValue.null ∧
    parseBody noContentTypeRequest acceptAllSchema =
      Except.error (Err.validationError "Content-Type must be application/json" none) := by
  constructor
  · have h := (parseBody_substring_gate charsetRequest acceptAllSchema).1
      "application/json; charset=utf-8" (by rfl) (by decide)
    rw [h]
    rfl
  · exact (parseBody_substring_gate noContentTypeRequest acceptAllSchema).2.1 (by rfl)
